import Mathlib

/-!
Verification of the response-extraction and data-repair pipeline of the
`llm_lib` repository (package `llm_completion`).

The development shallowly embeds the Python sources:

* `llm_completion/implementations/json_generator.py` —
  `JsonSchemaDataGenerator.generate_data`, `_process_item`,
  `_ensure_unsplash_url`, `_format_icon`;
* `llm_completion/implementations/landing_tags.py` —
  `LandingPageTagFinder.find_tags`, `analyze_component_structure`;
* the tag catalog (`tag_manager.py`) and the JSON extractor
  (`completion.py` / `utils.py`) are not part of the available sources, so
  the definitions that stand for them are modelled from the specification
  and carry a doc comment saying so.

JSON values are the inductive `Json`; Python dicts are ordered association
lists (Python dicts preserve insertion order); Python string operations used
by the code (`lower`, `startswith`, `in`, `replace(" ", "-")`, `strip`,
`capitalize`, truthiness) are embedded as executable functions over the
character lists of Lean strings.
-/

namespace LlmLib

/-- A JSON value as produced by `json.loads`: null, booleans, numbers,
strings, arrays, and objects (ordered key/value lists, as Python dicts
preserve insertion order). -/
inductive Json where
  | null
  | bool (b : Bool)
  | num (n : Int)
  | str (s : String)
  | arr (elems : List Json)
  | obj (members : List (String × Json))

/-- Python `s.lower()` (ASCII case folding, as used by the repository). -/
def pyLower (s : String) : String := String.mk (s.data.map Char.toLower)

/-- Python `s.startswith(pre)`. -/
def pyStartsWith (s pre : String) : Bool := pre.data.isPrefixOf s.data

/-- Substring test on character lists (helper for Python `sub in s`). -/
def containsSub (sub : List Char) : List Char → Bool
  | [] => sub.isEmpty
  | c :: rest => sub.isPrefixOf (c :: rest) || containsSub sub rest

/-- Python `sub in s` for strings. -/
def strContains (s sub : String) : Bool := containsSub sub.data s.data

/-- Python `s.replace(" ", "-")`. -/
def pyReplaceSpaceDash (s : String) : String :=
  String.mk (s.data.map (fun c => if c = ' ' then '-' else c))

/-- Python `s.strip()` (whitespace trimmed on both ends). -/
def pyStrip (s : String) : String :=
  String.mk (((s.data.dropWhile Char.isWhitespace).reverse.dropWhile Char.isWhitespace).reverse)

/-- Python `s.capitalize()`: first character upper-cased, the rest
lower-cased. -/
def pyCapitalize (s : String) : String :=
  match s.data with
  | [] => ""
  | c :: cs => String.mk (c.toUpper :: cs.map Char.toLower)

/-- Python `s and s[0].isupper()`: the string is non-empty and its first
character is an upper-case letter. -/
def startsUpper (s : String) : Bool :=
  match s.data with
  | [] => false
  | c :: _ => c.isUpper

/-! ## `json_generator.py`: the schema-guided data post-processor -/

/-- The image-indicating key substrings of `_process_item`. -/
def imageKeySubstrings : List String := ["image", "img", "photo", "picture", "thumbnail"]

/-- The icon-indicating key substrings of `_process_item`. -/
def iconKeySubstrings : List String := ["icon", "svg", "logo"]

/-- `any(img_key in key.lower() for img_key in [...])` in `_process_item`. -/
def isImageKey (key : String) : Bool :=
  imageKeySubstrings.any (fun sub => strContains (pyLower key) sub)

/-- `any(icon_key in key.lower() for icon_key in [...])` in `_process_item`. -/
def isIconKey (key : String) : Bool :=
  iconKeySubstrings.any (fun sub => strContains (pyLower key) sub)

/-- The fixed stock-photo URL prefix used by `_ensure_unsplash_url`. -/
def unsplashUrlBase : String := "https://source.unsplash.com/random?"

/-- `JsonSchemaDataGenerator._ensure_unsplash_url(value, context)`:
return `value` when it already starts with `"http"` and mentions
`unsplash.com`; otherwise slugify `value` (spaces to hyphens, then
lower-case), or use the lower-cased `context` when the value is one of the
placeholder tokens and the context is truthy, and append it to the fixed
URL prefix. -/
def ensureUnsplashUrl (value : String) (context : String) : String :=
  if pyStartsWith value "http" && strContains value "unsplash.com" then value
  else
    let sanitized := pyLower (pyReplaceSpaceDash value)
    let sanitized :=
      if (value == "image" || value == "placeholder" || value == "photo") && !(context == "")
      then pyLower context
      else sanitized
    unsplashUrlBase ++ sanitized

/-- The prefix-to-package table of `_format_icon` (default Font Awesome). -/
def iconPackageFor (iconName : String) : String :=
  if pyStartsWith iconName "Fa" then "react-icons/fa"
  else if pyStartsWith iconName "Md" then "react-icons/md"
  else if pyStartsWith iconName "Io" then "react-icons/io"
  else if pyStartsWith iconName "Bi" then "react-icons/bi"
  else if pyStartsWith iconName "Fi" then "react-icons/fi"
  else "react-icons/fa"

/-- `JsonSchemaDataGenerator._format_icon(value)` on a string argument
(the `isinstance(value, dict)` guard is vacuous there): strip the value,
prefix with `"Fa"` and capitalize unless it already starts with an
upper-case letter, and pick the react-icons package from the name prefix. -/
def formatIcon (value : String) : Json :=
  let v := pyStrip value
  let iconName := if startsUpper v then v else "Fa" ++ pyCapitalize v
  Json.obj [("package", Json.str (iconPackageFor iconName)), ("name", Json.str iconName)]

/-- The key-sensitive rewriting `_process_item` applies to an
already-processed value sitting under key `key`: only string values are
touched; image-indicating keys get `_ensure_unsplash_url` unless the value
starts with `"http"`; otherwise icon-indicating keys get `_format_icon`
unless the value starts with `"http"`. -/
def handleValue (key : String) (pv : Json) : Json :=
  match pv with
  | Json.str s =>
    if isImageKey key then
      if pyStartsWith s "http" then Json.str s else Json.str (ensureUnsplashUrl s key)
    else if isIconKey key then
      if pyStartsWith s "http" then Json.str s else formatIcon s
    else Json.str s
  | _ => pv

mutual
/-- `JsonSchemaDataGenerator._process_item(item)`: recurse into dicts and
lists, rewrite string values under image/icon keys, return everything else
unchanged. -/
def processItem : Json → Json
  | Json.obj kvs => Json.obj (processObj kvs)
  | Json.arr xs => Json.arr (processArr xs)
  | other => other
/-- The dict branch of `_process_item`: process each value recursively,
then apply the key-sensitive rewriting, keeping keys and their order. -/
def processObj : List (String × Json) → List (String × Json)
  | [] => []
  | (k, v) :: rest => (k, handleValue k (processItem v)) :: processObj rest
/-- The list branch of `_process_item`: process the elements in order. -/
def processArr : List Json → List Json
  | [] => []
  | v :: rest => processItem v :: processArr rest
end

/-- `JsonSchemaDataGenerator._process_generated_data(data)`: map
`_process_item` over the list of generated objects. -/
def processGeneratedData (data : List Json) : List Json := data.map processItem

/-- `JsonSchemaDataGenerator.generate_data`, from the point where the
completion provider's JSON result is available: a raised completion error
propagates (the `except` clause logs and re-raises); a list result is
post-processed element-wise; a dict result is wrapped into a one-element
list first; anything else raises `ValueError`. -/
def generate_data (outcome : Except String Json) : Except String (List Json) := do
  let result ← outcome
  match result with
  | Json.arr xs => return processGeneratedData xs
  | Json.obj kvs => return processGeneratedData [Json.obj kvs]
  | _ => Except.error "ValueError"

/-! ### Spec-side formulations used to compare the claims with the code -/

/-- The stock-photo URL the specification describes for an image-keyed
string `s` under key `k`: the fixed prefix followed by the slugified value
(spaces to hyphens, lower-cased), or by the merely lower-cased key name
when the value is one of the generic placeholder tokens and the key is
non-empty. -/
def claimImageUrl (s k : String) : String :=
  if (s == "image" || s == "placeholder" || s == "photo") && !(k == "") then
    unsplashUrlBase ++ pyLower k
  else
    unsplashUrlBase ++ pyLower (pyReplaceSpaceDash s)

/-- The icon name the specification describes: the trimmed string itself
when it starts with an upper-case letter, otherwise `"Fa"` followed by the
capitalized trimmed string. -/
def claimIconName (s : String) : String :=
  let t := pyStrip s
  if startsUpper t then t else "Fa" ++ pyCapitalize t

/-- The package table of the specification: two-letter prefix lookup with
`react-icons/fa` as the default. -/
def claimIconPackage (nm : String) : String :=
  if pyStartsWith nm "Fa" then "react-icons/fa"
  else if pyStartsWith nm "Md" then "react-icons/md"
  else if pyStartsWith nm "Io" then "react-icons/io"
  else if pyStartsWith nm "Bi" then "react-icons/bi"
  else if pyStartsWith nm "Fi" then "react-icons/fi"
  else "react-icons/fa"

/-! ## The shape-preservation relation of the specification -/

mutual
/-- The shape relation of the specification: dicts map to dicts with
exactly the same keys in the same order, lists to lists of the same length
in the same order, non-string scalars to themselves, and only a leaf
string value may be related to something different. -/
def SameShape : Json → Json → Prop
  | Json.str _, _ => True
  | Json.null, w => w = Json.null
  | Json.bool b, w => w = Json.bool b
  | Json.num n, w => w = Json.num n
  | Json.arr xs, Json.arr ys => SameShapeList xs ys
  | Json.arr _, _ => False
  | Json.obj kvs, Json.obj kws => SameShapeObj kvs kws
  | Json.obj _, _ => False
/-- Pointwise shape relation on array elements (same length, same order). -/
def SameShapeList : List Json → List Json → Prop
  | [], [] => True
  | x :: xs, y :: ys => SameShape x y ∧ SameShapeList xs ys
  | _, _ => False
/-- Pointwise shape relation on object members (same keys, same order). -/
def SameShapeObj : List (String × Json) → List (String × Json) → Prop
  | [], [] => True
  | (k1, v1) :: xs, (k2, v2) :: ys => k1 = k2 ∧ SameShape v1 v2 ∧ SameShapeObj xs ys
  | _, _ => False
end

/-! ## `landing_tags.py`: the landing-page tag finder

`LandingPageTagFinder` delegates catalog lookups to `TagManager`
(`tag_manager.py`), whose source is not available; the catalog definitions
below are modelled from the specification (section 4.4) and marked as
such. The control flow of `find_tags` and `analyze_component_structure`
is embedded from `landing_tags.py` itself, with the completion call and
the catalog passed in as explicit arguments/definitions.
-/

/-- Modelled from the spec: `TagManager.TAG_CATEGORIES` (`tag_manager.py`
is not among the available sources) — a static mapping from category name
to its ordered tag set; the categories include the "important" subset
`primary`/`function`/`content` used by the structural analysis and the
focus areas (such as `conversion` and `trust`) accepted by
`get_component_combinations`. -/
def TAG_CATEGORIES : List (String × List String) := [
  ("primary", ["hero", "cta", "footer"]),
  ("function", ["form", "navigation", "menu"]),
  ("content", ["content", "media", "faq"]),
  ("conversion", ["conversion", "pricing", "action"]),
  ("trust", ["trust-building", "social-proof", "testimonial"])
]

/-- Modelled from the spec: the component-name → recommended-tags mapping
of `TagManager` — a static catalog; `get_recommended_tags` looks a name up
exactly after case normalization and yields the empty list for unknown
names. -/
def COMPONENT_TAGS : List (String × List String) := [
  ("hero", ["hero", "media", "cta"]),
  ("features", ["features", "content", "media"]),
  ("testimonials", ["testimonial", "social-proof", "trust-building"]),
  ("pricing", ["pricing", "conversion", "decision"]),
  ("cta", ["cta", "conversion", "action"]),
  ("faq", ["faq", "content", "support"]),
  ("contact", ["contact", "form", "engagement"]),
  ("footer", ["footer", "navigation", "info"]),
  ("navbar", ["navigation", "header", "menu"])
]

/-- Modelled from the spec: `TagManager.get_recommended_tags(name)` —
exact (case-normalized) lookup in the component catalog, empty list when
the name is unknown (never an error). -/
def get_recommended_tags (name : String) : List String :=
  match COMPONENT_TAGS.find? (fun p => p.1 == pyLower name) with
  | some p => p.2
  | none => []

/-- Modelled from the spec: the general-purpose default component ordering
the tag manager selects from. -/
def DEFAULT_COMPONENT_ORDER : List String :=
  ["hero", "features", "testimonials", "pricing", "cta", "faq", "contact", "footer", "navbar"]

/-- Modelled from the spec: the components of the default ordering whose
recommended tags intersect the given focus category's tag set. -/
def focusMatchingComponents (ftags : List String) : List String :=
  DEFAULT_COMPONENT_ORDER.filter
    (fun c => (get_recommended_tags c).any (fun t => ftags.contains t))

/-- Modelled from the spec: the focus-aware branch of
`get_component_combinations` — prefer focus-matching components, fill the
remaining slots from the default ordering without repeating, and fall back
to the unfiltered default list when fewer than `count` focus-matching
components exist. -/
def combinationsWithFocusTags (count : Nat) (ftags : List String) : List String :=
  if (focusMatchingComponents ftags).length < count then
    DEFAULT_COMPONENT_ORDER.take count
  else
    (focusMatchingComponents ftags ++
      DEFAULT_COMPONENT_ORDER.filter
        (fun c => !((focusMatchingComponents ftags).contains c))).take count

/-- Modelled from the spec: `TagManager.get_component_combinations(count,
focus)` — a deterministic ordered selection of component names, stopping
at `count` and never repeating a component; an unknown or absent focus
falls back to the default ordering. -/
def get_component_combinations (count : Nat) (focus : Option String) : List String :=
  match focus with
  | none => DEFAULT_COMPONENT_ORDER.take count
  | some f =>
    match TAG_CATEGORIES.find? (fun p => p.1 == pyLower f) with
    | none => DEFAULT_COMPONENT_ORDER.take count
    | some p => combinationsWithFocusTags count p.2

mutual
/-- Python `str(item)` on a JSON value, as used by
`tags = [str(item) for item in result]` in `find_tags`: strings render as
themselves, other values by their Python representation. -/
def pyStrOf : Json → String
  | Json.str s => s
  | v => pyReprOf v
/-- Python `repr` of a JSON value (escaping of quotes inside strings is
not modelled; no claim depends on it). -/
def pyReprOf : Json → String
  | Json.null => "None"
  | Json.bool true => "True"
  | Json.bool false => "False"
  | Json.num n => toString n
  | Json.str s => "\x27" ++ s ++ "\x27"
  | Json.arr xs => "[" ++ pyReprList xs ++ "]"
  | Json.obj kvs => "\x7b" ++ pyReprObj kvs ++ "\x7d"
/-- Comma-separated rendering of array elements. -/
def pyReprList : List Json → String
  | [] => ""
  | [v] => pyReprOf v
  | v :: rest => pyReprOf v ++ ", " ++ pyReprList rest
/-- Comma-separated rendering of object members. -/
def pyReprObj : List (String × Json) → String
  | [] => ""
  | [(k, v)] => "\x27" ++ k ++ "\x27: " ++ pyReprOf v
  | (k, v) :: rest => "\x27" ++ k ++ "\x27: " ++ pyReprOf v ++ ", " ++ pyReprObj rest
end

/-- The dict-repair step of `find_tags`: the first value of the result
dict that is a list, if any (`for k, v in result.items(): if
isinstance(v, list): result = v; break`). -/
def firstListValue : List (String × Json) → Option (List Json)
  | [] => none
  | (_, Json.arr xs) :: _ => some xs
  | _ :: rest => firstListValue rest

/-- The default-padding loop of `find_tags`: `for c in
default_components: if c not in tags and len(tags) < count:
tags.append(c)`. -/
def addDefaultTags (tags defaults : List String) (count : Nat) : List String :=
  match defaults with
  | [] => tags
  | c :: rest =>
    if !(tags.contains c) && tags.length < count then
      addDefaultTags (tags ++ [c]) rest count
    else addDefaultTags tags rest count

/-- The body of the `try` block of the API branch of
`LandingPageTagFinder.find_tags`, from the completion call on: a raised
completion error propagates; a non-list result that is a dict with some
list value is repaired to that list, otherwise `ValueError` is raised;
the items are stringified; and when fewer than `count` tags came back,
defaults from `get_component_combinations(count - len(tags))` are
appended without duplicating. -/
def find_tags_body (getComb : Nat → Option String → List String)
    (outcome : Except String Json) (count : Nat) : Except String (List String) := do
  let result ← outcome
  let items ← (match result with
    | Json.arr xs => Except.ok xs
    | Json.obj kvs =>
      match firstListValue kvs with
      | some xs => Except.ok xs
      | none => Except.error "ValueError"
    | _ => Except.error "ValueError")
  let tags := items.map pyStrOf
  let tags :=
    if tags.length < count then addDefaultTags tags (getComb (count - tags.length) none) count
    else tags
  return tags

/-- `LandingPageTagFinder.find_tags(components, count, focus)`: an empty
component list short-circuits to the tag manager's recommendation; local
mode filters the recommendation against the available components and pads
from them; API mode runs the `try` body and falls back to the tag
manager's recommendation on any exception. The completion call is passed
in as `outcome`; the tag manager's `get_component_combinations` as
`getComb`. -/
def find_tags (useApi : Bool) (getComb : Nat → Option String → List String)
    (outcome : Except String Json) (components : List String) (count : Nat)
    (focus : Option String) : List String :=
  if components.isEmpty then getComb count focus
  else if !useApi then
    let recommended := getComb count focus
    let filtered := recommended.filter (fun c => components.contains c)
    let filtered :=
      if filtered.length < count && count ≤ components.length then
        filtered ++
          (components.filter (fun c => !(filtered.contains c))).take (count - filtered.length)
      else filtered
    filtered.take count
  else
    match find_tags_body getComb outcome count with
    | Except.ok tags => tags
    | Except.error _ => getComb count focus

/-- The keys of a JSON object (empty for non-objects). -/
def jsonKeys : Json → List String
  | Json.obj kvs => kvs.map Prod.fst
  | _ => []

/-- `component.get("name", "")` followed by its uses: `some s` when the
component is a dict whose `name` is the string `s` (or `some ""` when the
key is absent, matching the default); `none` when the attribute accesses
of `analyze_component_structure` would raise (`component` is not a dict,
or its `name` value is not a string and `.lower()` would fail). -/
def compName? : Json → Option String
  | Json.obj kvs =>
    (match kvs.find? (fun p => p.1 == "name") with
     | none => some ""
     | some p =>
       match p.2 with
       | Json.str s => some s
       | _ => none)
  | _ => none

/-- A component entry that the analysis loop can process without raising. -/
def wellFormedComp (c : Json) : Bool := (compName? c).isSome

/-- The component name with the dict-lookup default. -/
def compNameD (c : Json) : String := (compName? c).getD ""

/-- The per-tag coverage bump: each category whose tag set contains the
tag has its count incremented. -/
def bumpCoverage (cov : List (String × Nat)) (tag : String) : List (String × Nat) :=
  cov.map (fun p =>
    match TAG_CATEGORIES.find? (fun q => q.1 == p.1) with
    | some q => if q.2.contains tag then (p.1, p.2 + 1) else p
    | none => p)

/-- The tag-usage loop of `analyze_component_structure`: starting from all
categories at zero, walk the components in order, skip falsy names, and
bump the coverage for every recommended tag of each named component. -/
def categoryCoverage (components : List Json) : List (String × Nat) :=
  components.foldl
    (fun cov c =>
      match compName? c with
      | some name =>
        if name == "" then cov
        else (get_recommended_tags name).foldl bumpCoverage cov
      | none => cov)
    (TAG_CATEGORIES.map (fun p => (p.1, 0)))

/-- The suggestion list of `analyze_component_structure`: one suggestion
per missing canonical section, then one per missing "important"
category. -/
def analysisSuggestions (hasHero hasCta hasFooter : Bool) (missing : List String) : List String :=
  (if hasHero then [] else ["Add a Hero section at the top of your landing page"]) ++
  (if hasCta then [] else ["Include a Call to Action (CTA) section"]) ++
  (if hasFooter then [] else ["Add a Footer section"]) ++
  (missing.filter (fun c => c == "primary" || c == "function" || c == "content")).map
    (fun c => "Add components with \x27" ++ c ++ "\x27 tags for better balance")

/-- `LandingPageTagFinder.analyze_component_structure(components)`: when
every entry can be processed, return the full analysis object
(`component_count`, `has_essential_sections`, `category_coverage`,
`missing_categories`, `suggestions`); when some entry makes the loop raise
(a non-dict entry, or a non-string `name`), the `except` clause returns an
object with only `component_count` and `error` (the error message string
of the raised exception is abstracted to its type name). -/
def analyze_component_structure (components : List Json) : Json :=
  if components.all wellFormedComp then
    Json.obj [
      ("component_count", Json.num components.length),
      ("has_essential_sections", Json.obj [
        ("hero", Json.bool (components.any (fun c => pyLower (compNameD c) == "hero"))),
        ("cta", Json.bool (components.any (fun c => pyLower (compNameD c) == "cta"))),
        ("footer", Json.bool (components.any (fun c => pyLower (compNameD c) == "footer")))]),
      ("category_coverage", Json.obj
        ((categoryCoverage components).map (fun p => (p.1, Json.num p.2)))),
      ("missing_categories", Json.arr
        (((categoryCoverage components).filter (fun p => p.2 == 0)).map
          (fun p => Json.str p.1))),
      ("suggestions", Json.arr
        ((analysisSuggestions
            (components.any (fun c => pyLower (compNameD c) == "hero"))
            (components.any (fun c => pyLower (compNameD c) == "cta"))
            (components.any (fun c => pyLower (compNameD c) == "footer"))
            (((categoryCoverage components).filter (fun p => p.2 == 0)).map Prod.fst)).map
          Json.str))
    ]
  else
    Json.obj [("component_count", Json.num components.length),
      ("error", Json.str "AttributeError")]

/-! ## The JSON repair/extractor

The extractor lives in `completion.py` / `utils.py`, which are not among
the available sources; the definitions below are modelled from the
specification (sections 4.1 and 4.2). JSON parsing itself is done by the
Python standard library (`json.loads`), an external collaborator, so it is
passed in as a `parse` parameter.
-/

/-- Modelled from the spec: the remainder of the character list after the
first occurrence of `sub` (helper for locating an opening fence). -/
def dropUntilAfter (sub : List Char) : List Char → Option (List Char)
  | [] => if sub.isEmpty then some [] else none
  | c :: rest =>
    if sub.isPrefixOf (c :: rest) then some ((c :: rest).drop sub.length)
    else dropUntilAfter sub rest

/-- Modelled from the spec: the characters strictly before the first
occurrence of `sub` (helper for locating a closing fence). -/
def takeUntil (sub : List Char) : List Char → Option (List Char)
  | [] => if sub.isEmpty then some [] else none
  | c :: rest =>
    if sub.isPrefixOf (c :: rest) then some []
    else
      match takeUntil sub rest with
      | some l => some (c :: l)
      | none => none

/-- Modelled from the spec: `extract_code_from_markdown(text, lang)`
(`utils.py`, spec 4.1) — the content of the first fenced code block whose
opening fence declares the requested language tag, or nothing when no such
block exists. -/
def extract_code_from_markdown (lang : String) (text : String) : Option String :=
  match dropUntilAfter ("```" ++ lang ++ "\n").data text.data with
  | some rest =>
    match takeUntil "```".data rest with
    | some content => some (String.mk content)
    | none => none
  | none => none

/-- Modelled from the spec: scan for the closing brace matching an already
open brace, keeping the accumulated span (reversed). -/
def scanBalanced : Nat → List Char → List Char → Option (List Char)
  | _, _, [] => none
  | depth, acc, c :: rest =>
    if c = '\x7b' then scanBalanced (depth + 1) (c :: acc) rest
    else if c = '\x7d' then
      if depth ≤ 1 then some ((c :: acc).reverse)
      else scanBalanced (depth - 1) (c :: acc) rest
    else scanBalanced depth (c :: acc) rest

/-- Modelled from the spec: the first balanced `\x7b...\x7d` span of the
text, if any. -/
def firstBalancedSpan : List Char → Option (List Char)
  | [] => none
  | c :: rest =>
    if c = '\x7b' then
      match scanBalanced 1 [c] rest with
      | some span => some span
      | none => firstBalancedSpan rest
    else firstBalancedSpan rest

/-- The typed extraction failure of the specification: a parsing failure
carries the offending raw text for diagnostics. -/
inductive ExtractError where
  | parsingFailure (rawText : String)

/-- Modelled from the spec: the JSON repair/extractor of `completion.py`
(spec 4.2). In priority order: parse a fenced `json` block; otherwise
parse the first balanced brace span whose contents include the recognizable
marker keys; otherwise fail with a typed parsing failure carrying the raw
text. `parse` stands for the external `json.loads` (`none` meaning a
`JSONDecodeError`). -/
def extract_json (parse : String → Option Json) (markers : List String)
    (text : String) : Except ExtractError Json :=
  match
    (match extract_code_from_markdown "json" text with
     | some block => parse block
     | none => none) with
  | some v => Except.ok v
  | none =>
    match firstBalancedSpan text.data with
    | some span =>
      if markers.all (fun m => strContains (String.mk span) m) then
        match parse (String.mk span) with
        | some v => Except.ok v
        | none => Except.error (ExtractError.parsingFailure text)
      else Except.error (ExtractError.parsingFailure text)
    | none => Except.error (ExtractError.parsingFailure text)

/-! ## Supporting lemmas about the post-processor -/

theorem processItem_str (s : String) : processItem (Json.str s) = Json.str s := rfl

theorem processObj_eq_map (kvs : List (String × Json)) :
    processObj kvs = kvs.map (fun kv => (kv.1, handleValue kv.1 (processItem kv.2))) := by
  induction kvs with
  | nil => rfl
  | cons kv rest ih => cases kv; simp [processObj, ih]

theorem processObj_keys (kvs : List (String × Json)) :
    (processObj kvs).map Prod.fst = kvs.map Prod.fst := by
  induction kvs with
  | nil => rfl
  | cons kv rest ih => cases kv; simp [processObj, ih]

theorem processArr_length (xs : List Json) : (processArr xs).length = xs.length := by
  induction xs with
  | nil => rfl
  | cons x rest ih => simp [processArr, ih]

theorem isPrefixOf_append {p a : List Char} (b : List Char) (h : p.isPrefixOf a = true) :
    p.isPrefixOf (a ++ b) = true := by
  simp only [List.isPrefixOf_iff_prefix] at h ⊢
  exact h.trans (List.prefix_append a b)

theorem pyStartsWith_base_append (x : String) :
    pyStartsWith (unsplashUrlBase ++ x) "http" = true := by
  show ("http".data).isPrefixOf (unsplashUrlBase.data ++ x.data) = true
  exact isPrefixOf_append x.data (by decide)

theorem ensureUnsplashUrl_http (s k : String) :
    pyStartsWith (ensureUnsplashUrl s k) "http" = true := by
  unfold ensureUnsplashUrl
  split
  · next h =>
      have := (Bool.and_eq_true _ _).mp h
      exact this.1
  · split <;> exact pyStartsWith_base_append _

theorem processItem_formatIcon (s : String) : processItem (formatIcon s) = formatIcon s := rfl

theorem handleValue_formatIcon (k s : String) : handleValue k (formatIcon s) = formatIcon s := rfl

theorem handleValue_stable (k : String) (w : Json) (hw : processItem w = w) :
    handleValue k (processItem (handleValue k w)) = handleValue k w := by
  cases w with
  | str s =>
    by_cases himg : isImageKey k
    · by_cases hhttp : pyStartsWith s "http"
      · have h1 : handleValue k (Json.str s) = Json.str s := by
          simp [handleValue, himg, hhttp]
        rw [h1, processItem_str, h1]
      · have h1 : handleValue k (Json.str s) = Json.str (ensureUnsplashUrl s k) := by
          simp [handleValue, himg, hhttp]
        rw [h1, processItem_str]
        simp [handleValue, himg, ensureUnsplashUrl_http]
    · by_cases hicon : isIconKey k
      · by_cases hhttp : pyStartsWith s "http"
        · have h1 : handleValue k (Json.str s) = Json.str s := by
            simp [handleValue, himg, hicon, hhttp]
          rw [h1, processItem_str, h1]
        · have h1 : handleValue k (Json.str s) = formatIcon s := by
            simp [handleValue, himg, hicon, hhttp]
          rw [h1, processItem_formatIcon, handleValue_formatIcon]
      · have h1 : handleValue k (Json.str s) = Json.str s := by
          simp [handleValue, himg, hicon]
        rw [h1, processItem_str, h1]
  | null =>
      show handleValue k (processItem Json.null) = Json.null
      rw [hw]; rfl
  | bool b =>
      show handleValue k (processItem (Json.bool b)) = Json.bool b
      rw [hw]; rfl
  | num n =>
      show handleValue k (processItem (Json.num n)) = Json.num n
      rw [hw]; rfl
  | arr xs =>
      show handleValue k (processItem (Json.arr xs)) = Json.arr xs
      rw [hw]; rfl
  | obj kvs =>
      show handleValue k (processItem (Json.obj kvs)) = Json.obj kvs
      rw [hw]; rfl

mutual
theorem processItem_idem : (v : Json) → processItem (processItem v) = processItem v
  | Json.null => rfl
  | Json.bool _ => rfl
  | Json.num _ => rfl
  | Json.str _ => rfl
  | Json.arr xs => congrArg Json.arr (processArr_idem xs)
  | Json.obj kvs => congrArg Json.obj (processObj_idem kvs)
theorem processArr_idem : (xs : List Json) → processArr (processArr xs) = processArr xs
  | [] => rfl
  | v :: rest =>
    have h1 : processItem (processItem v) = processItem v := processItem_idem v
    have h2 : processArr (processArr rest) = processArr rest := processArr_idem rest
    by show processItem (processItem v) :: processArr (processArr rest) =
          processItem v :: processArr rest
       rw [h1, h2]
theorem processObj_idem : (kvs : List (String × Json)) →
    processObj (processObj kvs) = processObj kvs
  | [] => rfl
  | (k, v) :: rest =>
    have h1 : processItem (processItem v) = processItem v := processItem_idem v
    have h2 : processObj (processObj rest) = processObj rest := processObj_idem rest
    by show (k, handleValue k (processItem (handleValue k (processItem v)))) ::
            processObj (processObj rest) =
          (k, handleValue k (processItem v)) :: processObj rest
       rw [handleValue_stable k (processItem v) h1, h2]
end

mutual
theorem sameShape_processItem : (v : Json) → SameShape v (processItem v)
  | Json.null => rfl
  | Json.bool _ => rfl
  | Json.num _ => rfl
  | Json.str _ => trivial
  | Json.arr xs => sameShape_processArr xs
  | Json.obj kvs => sameShape_processObj kvs
theorem sameShape_processArr : (xs : List Json) → SameShapeList xs (processArr xs)
  | [] => trivial
  | v :: rest => ⟨sameShape_processItem v, sameShape_processArr rest⟩
theorem sameShape_processObj : (kvs : List (String × Json)) →
    SameShapeObj kvs (processObj kvs)
  | [] => trivial
  | (k, v) :: rest => ⟨rfl, sameShape_entry k v, sameShape_processObj rest⟩
theorem sameShape_entry : (k : String) → (v : Json) → SameShape v (handleValue k (processItem v))
  | _, Json.null => rfl
  | _, Json.bool _ => rfl
  | _, Json.num _ => rfl
  | _, Json.str _ => trivial
  | _, Json.arr xs => sameShape_processArr xs
  | _, Json.obj kvs => sameShape_processObj kvs
end

theorem ensureUnsplashUrl_eq_claim (s k : String) (hs : pyStartsWith s "http" = false) :
    ensureUnsplashUrl s k = claimImageUrl s k := by
  unfold ensureUnsplashUrl claimImageUrl
  rw [hs]
  simp only [Bool.false_and, Bool.false_eq_true, if_false]
  split <;> rfl

theorem formatIcon_eq_claim (s : String) :
    formatIcon s = Json.obj [("package", Json.str (claimIconPackage (claimIconName s))),
      ("name", Json.str (claimIconName s))] := rfl

/-! ## Claim theorems for the post-processor -/

/-- Claim C1: the post-processor preserves shape. For every JSON value the
output is shape-related to the input (`SameShape`: dicts map to dicts,
lists to lists, non-string scalars to themselves, only leaf strings may
change); moreover at every dict level the key list is preserved exactly
and at every array level the length is preserved. -/
theorem process_item_preserves_shape (v : Json) (kvs : List (String × Json)) (xs : List Json) :
    SameShape v (processItem v) ∧
    (processObj kvs).map Prod.fst = kvs.map Prod.fst ∧
    (processArr xs).length = xs.length :=
  ⟨sameShape_processItem v, processObj_keys kvs, processArr_length xs⟩

/-- Claim C2: the post-processor is idempotent — applying `_process_item`
twice yields the same result as applying it once. -/
theorem process_item_idempotent (v : Json) :
    processItem (processItem v) = processItem v :=
  processItem_idem v

/-- Claim C3 as stated is false: a string value under an image-indicating
key that is an absolute URL to a host other than Unsplash (so not a URL to
the expected image host) is left unchanged by the post-processor rather
than replaced by a synthesized stock-photo URL, because the code only
checks `startswith("http")`; and for a placeholder value the key name is
merely lower-cased, not slugified, so a space in the key survives. -/
theorem process_item_image_keys_counterexample :
    isImageKey "image" = true ∧
    strContains "http://example.com/a.png" "unsplash.com" = false ∧
    processItem (Json.obj [("image", Json.str "http://example.com/a.png")]) =
      Json.obj [("image", Json.str "http://example.com/a.png")] ∧
    "http://example.com/a.png" ≠ claimImageUrl "http://example.com/a.png" "image" ∧
    isImageKey "hero image" = true ∧
    processItem (Json.obj [("hero image", Json.str "placeholder")]) =
      Json.obj [("hero image", Json.str "https://source.unsplash.com/random?hero image")] ∧
    ("https://source.unsplash.com/random?hero image" : String) ≠
      "https://source.unsplash.com/random?hero-image" :=
  ⟨by decide, by decide, rfl, by decide, by decide, rfl, by decide⟩

/-- Claim C3 (amended): for every dict entry whose key contains an
image-indicating substring and whose value is a string that does not start
with `"http"`, the post-processor replaces the value by the fixed
stock-photo URL prefix followed by the slugified value (spaces to hyphens,
lower-cased), or by the merely lower-cased key name when the value is one
of the placeholder tokens `"image"`, `"placeholder"`, `"photo"` and the
key is non-empty. Values that already start with `"http"` (Unsplash or
not) are left unchanged. -/
theorem process_item_image_keys (kvs : List (String × Json)) (k s : String)
    (hmem : (k, Json.str s) ∈ kvs) (hk : isImageKey k = true)
    (hs : pyStartsWith s "http" = false) :
    ∃ kvs2, processItem (Json.obj kvs) = Json.obj kvs2 ∧
      (k, Json.str (claimImageUrl s k)) ∈ kvs2 := by
  refine ⟨processObj kvs, rfl, ?_⟩
  rw [processObj_eq_map]
  have hm := List.mem_map_of_mem
    (fun kv : String × Json => (kv.1, handleValue kv.1 (processItem kv.2))) hmem
  simpa [processItem_str, handleValue, hk, hs, ensureUnsplashUrl_eq_claim s k hs] using hm

/-- Witness for the amended claim C3 at the concrete entry
`"heroImage": "dog in park"`. -/
theorem process_item_image_keys_witness :
    ∃ kvs2, processItem (Json.obj [("heroImage", Json.str "dog in park")]) = Json.obj kvs2 ∧
      ("heroImage", Json.str (claimImageUrl "dog in park" "heroImage")) ∈ kvs2 :=
  process_item_image_keys [("heroImage", Json.str "dog in park")] "heroImage" "dog in park"
    (List.mem_singleton.mpr rfl) (by decide) (by decide)

/-- Claim C4: for every dict entry whose key contains an icon-indicating
substring (and does not match the image heuristic) and whose value is a
string not starting with `"http"`, the post-processor replaces it by an
object with exactly the fields `package` and `name`, where the name is the
trimmed value, prefixed with `"Fa"` and capitalized when it does not start
with an upper-case letter, and the package comes from the two-letter
prefix table with `react-icons/fa` as the default. -/
theorem process_item_icon_keys (kvs : List (String × Json)) (k s : String)
    (hmem : (k, Json.str s) ∈ kvs) (hk : isImageKey k = false)
    (hi : isIconKey k = true) (hs : pyStartsWith s "http" = false) :
    ∃ kvs2, processItem (Json.obj kvs) = Json.obj kvs2 ∧
      (k, Json.obj [("package", Json.str (claimIconPackage (claimIconName s))),
        ("name", Json.str (claimIconName s))]) ∈ kvs2 := by
  refine ⟨processObj kvs, rfl, ?_⟩
  rw [processObj_eq_map]
  have hm := List.mem_map_of_mem
    (fun kv : String × Json => (kv.1, handleValue kv.1 (processItem kv.2))) hmem
  simpa [processItem_str, handleValue, hk, hi, hs, formatIcon_eq_claim] using hm

/-- Witness for claim C4 at the concrete entry `"ctaIcon": "arrow"`. -/
theorem process_item_icon_keys_witness :
    ∃ kvs2, processItem (Json.obj [("ctaIcon", Json.str "arrow")]) = Json.obj kvs2 ∧
      ("ctaIcon", Json.obj [("package", Json.str (claimIconPackage (claimIconName "arrow"))),
        ("name", Json.str (claimIconName "arrow"))]) ∈ kvs2 :=
  process_item_icon_keys [("ctaIcon", Json.str "arrow")] "ctaIcon" "arrow"
    (List.mem_singleton.mpr rfl) (by decide) (by decide) (by decide)

/-- Claim C5: on `{"heroImage": "placeholder", "ctaIcon": "arrow"}` the
post-processor rewrites `heroImage` to a stock-photo URL string
(slugifying the key, since the value is a placeholder token) and `ctaIcon`
to an object with `package` and `name` fields; there are no other keys, so
all non-matching keys are trivially untouched. -/
theorem process_item_scenario :
    processItem (Json.obj [("heroImage", Json.str "placeholder"), ("ctaIcon", Json.str "arrow")]) =
      Json.obj [("heroImage", Json.str "https://source.unsplash.com/random?heroimage"),
        ("ctaIcon", Json.obj [("package", Json.str "react-icons/fa"),
          ("name", Json.str "FaArrow")])] := rfl

/-- Claim C10: when the completion result is a single dict,
`generate_data` wraps it into a one-element list before post-processing;
when the result is neither a list nor a dict, it raises `ValueError`
instead of returning. -/
theorem generate_data_list_contract (v : Json) :
    (∀ kvs, v = Json.obj kvs → generate_data (Except.ok v) = Except.ok [processItem v]) ∧
    ((∀ kvs, v ≠ Json.obj kvs) → (∀ xs, v ≠ Json.arr xs) →
      generate_data (Except.ok v) = Except.error "ValueError") := by
  constructor
  · rintro kvs rfl
    rfl
  · intro hobj harr
    cases v with
    | obj kvs => exact absurd rfl (hobj kvs)
    | arr xs => exact absurd rfl (harr xs)
    | null => rfl
    | bool b => rfl
    | num n => rfl
    | str s => rfl

/-- Witness for claim C10: a dict result is wrapped, a string result is a
`ValueError`. -/
theorem generate_data_list_contract_witness :
    generate_data (Except.ok (Json.obj [("a", Json.null)])) =
      Except.ok [processItem (Json.obj [("a", Json.null)])] ∧
    generate_data (Except.ok (Json.str "x")) = Except.error "ValueError" :=
  ⟨(generate_data_list_contract _).1 _ rfl,
   (generate_data_list_contract _).2 (fun _ h => Json.noConfusion h)
     (fun _ h => Json.noConfusion h)⟩

/-! ## Supporting lemmas for the tag finder -/

theorem find_tags_body_error (getComb : Nat → Option String → List String)
    (e : String) (count : Nat) :
    find_tags_body getComb (Except.error e) count = Except.error e := rfl

theorem DEFAULT_COMPONENT_ORDER_length : DEFAULT_COMPONENT_ORDER.length = 9 := rfl

theorem DEFAULT_COMPONENT_ORDER_nodup : DEFAULT_COMPONENT_ORDER.Nodup := by decide

theorem combinationsWithFocusTags_length (count : Nat) (ftags : List String)
    (h : count ≤ 9) : (combinationsWithFocusTags count ftags).length = count := by
  unfold combinationsWithFocusTags
  by_cases hm : (focusMatchingComponents ftags).length < count
  · rw [if_pos hm]
    simp [List.length_take, DEFAULT_COMPONENT_ORDER_length]
    omega
  · rw [if_neg hm]
    simp only [List.length_take, List.length_append]
    omega

theorem combinationsWithFocusTags_nodup (count : Nat) (ftags : List String) :
    (combinationsWithFocusTags count ftags).Nodup := by
  unfold combinationsWithFocusTags
  by_cases hm : (focusMatchingComponents ftags).length < count
  · rw [if_pos hm]
    exact List.Nodup.sublist (List.take_sublist _ _) DEFAULT_COMPONENT_ORDER_nodup
  · rw [if_neg hm]
    refine List.Nodup.sublist (List.take_sublist _ _) (List.Nodup.append ?_ ?_ ?_)
    · exact List.Nodup.filter _ DEFAULT_COMPONENT_ORDER_nodup
    · exact List.Nodup.filter _ DEFAULT_COMPONENT_ORDER_nodup
    · intro a ha hb
      have hcond := List.of_mem_filter hb
      simp at hcond
      exact hcond ha

theorem get_component_combinations_length (count : Nat) (focus : Option String)
    (h : count ≤ 9) : (get_component_combinations count focus).length = count := by
  have htake : (DEFAULT_COMPONENT_ORDER.take count).length = count := by
    simp [List.length_take, DEFAULT_COMPONENT_ORDER_length]
    omega
  unfold get_component_combinations
  split
  · exact htake
  · split
    · exact htake
    · exact combinationsWithFocusTags_length count _ h

theorem get_component_combinations_nodup (count : Nat) (focus : Option String) :
    (get_component_combinations count focus).Nodup := by
  have htake : (DEFAULT_COMPONENT_ORDER.take count).Nodup :=
    List.Nodup.sublist (List.take_sublist _ _) DEFAULT_COMPONENT_ORDER_nodup
  unfold get_component_combinations
  split
  · exact htake
  · split
    · exact htake
    · exact combinationsWithFocusTags_nodup count _

/-! ## Claim theorems for the tag finder -/

/-- Claim C6: in API mode with a non-empty component list, whenever the
completion call fails or the processing of its result raises (any error of
the `try` body), `find_tags` does not propagate the error but returns the
local tag manager's recommendation `get_component_combinations(count,
focus)`. -/
theorem find_tags_api_fallback (getComb : Nat → Option String → List String)
    (outcome : Except String Json) (components : List String) (count : Nat)
    (focus : Option String) (hc : components ≠ [])
    (hb : (∃ e, outcome = Except.error e) ∨
      ∃ e, find_tags_body getComb outcome count = Except.error e) :
    find_tags true getComb outcome components count focus = getComb count focus := by
  have hbody : ∃ e, find_tags_body getComb outcome count = Except.error e := by
    rcases hb with ⟨e, he⟩ | hdone
    · exact ⟨e, by rw [he]; exact find_tags_body_error getComb e count⟩
    · exact hdone
  rcases hbody with ⟨e, he⟩
  have hne : components.isEmpty = false := by
    cases components with
    | nil => exact absurd rfl hc
    | cons a l => rfl
  simp [find_tags, hne, he]

/-- Witness for claim C6: a failing completion call with a non-empty
component list yields the local recommendation. -/
theorem find_tags_api_fallback_witness :
    find_tags true (fun n _ => List.replicate n "hero") (Except.error "boom") ["a"] 9 none =
      List.replicate 9 "hero" :=
  find_tags_api_fallback _ _ _ _ _ (by decide) (Or.inl ⟨"boom", rfl⟩)

/-- Claim C8: local-mode `find_tags` with an empty component list and
`count = 5` short-circuits to the tag manager's recommended combination,
for every focus value (and every completion outcome, which is never
consulted); that combination has exactly 5 pairwise-distinct components,
and the model is a total function, so nothing is raised. -/
theorem find_tags_empty_components (outcome : Except String Json) (focus : Option String) :
    find_tags false get_component_combinations outcome [] 5 focus =
      get_component_combinations 5 focus ∧
    (get_component_combinations 5 focus).length = 5 ∧
    (get_component_combinations 5 focus).Nodup :=
  ⟨rfl, get_component_combinations_length 5 focus (by omega),
    get_component_combinations_nodup 5 focus⟩

/-- Claim C7 as stated is false: on a component list containing an entry
that is not a dict, `analyze_component_structure` takes the exception path
and returns an object with only `component_count` and `error` — not the
full result object the claim requires. -/
theorem analyze_component_structure_counterexample :
    analyze_component_structure [Json.str "oops"] =
      Json.obj [("component_count", Json.num 1), ("error", Json.str "AttributeError")] ∧
    jsonKeys (analyze_component_structure [Json.str "oops"]) = ["component_count", "error"] ∧
    jsonKeys (analyze_component_structure [Json.str "oops"]) ≠
      ["component_count", "has_essential_sections", "category_coverage",
        "missing_categories", "suggestions"] :=
  ⟨rfl, rfl, by decide⟩

/-- Claim C7 (amended): `analyze_component_structure` never raises; on the
empty list it returns the full well-formed result object with all category
counts zero; on any list whose entries are all processable dicts it
returns an object with exactly the five analysis fields; on a list with a
non-dict entry (or a non-string name) it returns an object with exactly
`component_count` and `error`. -/
theorem analyze_component_structure_amended (components : List Json) :
    analyze_component_structure [] = Json.obj [
      ("component_count", Json.num 0),
      ("has_essential_sections", Json.obj [("hero", Json.bool false),
        ("cta", Json.bool false), ("footer", Json.bool false)]),
      ("category_coverage", Json.obj (TAG_CATEGORIES.map (fun p => (p.1, Json.num 0)))),
      ("missing_categories", Json.arr (TAG_CATEGORIES.map (fun p => Json.str p.1))),
      ("suggestions", Json.arr ((["Add a Hero section at the top of your landing page",
        "Include a Call to Action (CTA) section", "Add a Footer section"] ++
        ["primary", "function", "content"].map
          (fun c => "Add components with \x27" ++ c ++ "\x27 tags for better balance")).map
        Json.str))] ∧
    jsonKeys (analyze_component_structure components) =
      (if components.all wellFormedComp then
        ["component_count", "has_essential_sections", "category_coverage",
          "missing_categories", "suggestions"]
      else ["component_count", "error"]) := by
  refine ⟨rfl, ?_⟩
  by_cases h : components.all wellFormedComp
  · rw [if_pos h]
    unfold analyze_component_structure
    rw [if_pos h]
    rfl
  · rw [if_neg h]
    unfold analyze_component_structure
    rw [if_neg h]
    rfl

/-- Claim C9: for every input text containing no JSON — no fenced `json`
block that parses and no balanced brace span that parses — the extractor
fails with the typed parsing failure, and that failure carries the
original raw text. -/
theorem extract_json_failure_carries_text (parse : String → Option Json)
    (markers : List String) (text : String)
    (h1 : ∀ b, extract_code_from_markdown "json" text = some b → parse b = none)
    (h2 : ∀ s, firstBalancedSpan text.data = some s → parse (String.mk s) = none) :
    extract_json parse markers text = Except.error (ExtractError.parsingFailure text) := by
  unfold extract_json
  have hfen : (match extract_code_from_markdown "json" text with
      | some block => parse block
      | none => none) = (none : Option Json) := by
    cases hb : extract_code_from_markdown "json" text with
    | some block => exact h1 block hb
    | none => rfl
  rw [hfen]
  cases hs : firstBalancedSpan text.data with
  | some span =>
    show (if (markers.all fun m => strContains (String.mk span) m) = true then
        match parse (String.mk span) with
        | some v => Except.ok v
        | none => Except.error (ExtractError.parsingFailure text)
      else Except.error (ExtractError.parsingFailure text)) =
      Except.error (ExtractError.parsingFailure text)
    rw [h2 span hs]
    split <;> rfl
  | none => rfl

/-- Witness for claim C9: on the JSON-free text `"hello"`, with a parser
that rejects everything, the extractor fails and carries the text. -/
theorem extract_json_failure_carries_text_witness :
    extract_json (fun _ => none) ["name"] "hello" =
      Except.error (ExtractError.parsingFailure "hello") :=
  extract_json_failure_carries_text (fun _ => none) ["name"] "hello"
    (fun _ _ => rfl) (fun _ _ => rfl)

end LlmLib
